import Mathlib

/-!
Verification of the data-cleaning / aggregation pipeline and the chat
history handling of the EV-dashboard repository (src/app.py and
src/chatbot_app.py), as a shallow embedding in Lean 4.

Cells of a pandas DataFrame are modelled by `PdCell` (a parsed string, a
number, or NaN), a DataFrame by an association list of named columns, and
the pipeline of `load_and_clean_data` (src/app.py lines 19-32) is
translated statement by statement.
-/

namespace IcesiPractica

/-- One cell of a pandas DataFrame as produced by `pd.read_csv`:
a string, a number (floats are modelled by rationals), or NaN (missing). -/
inductive PdCell where
  | str (s : String)
  | num (q : Rat)
  | nan
deriving DecidableEq

/-- A DataFrame: named columns in order. -/
structure DataFrame where
  cols : List (String × List PdCell)
deriving DecidableEq

/-- Outcome of `pd.read_csv(filepath)`: the file may be absent
(raises FileNotFoundError), completely empty (raises EmptyDataError),
or parse to a frame. -/
inductive ReadResult where
  | notFound
  | emptyFile
  | table (df : DataFrame)

/-- Exceptions that `load_and_clean_data` can propagate:
`KeyError` from `df[col]` on a missing column, `EmptyDataError` from
`pd.read_csv` on a completely empty file. -/
inductive CleanError where
  | keyError (col : String)
  | emptyDataError
deriving DecidableEq

/-- `df[c]`: the cells of column `c`, if present. -/
def getCol? (df : DataFrame) (c : String) : Option (List PdCell) :=
  (df.cols.find? (fun p => p.1 == c)).map (fun p => p.2)

/-- `df[c] = v`: replace column `c` in place (pandas appends when absent). -/
def setCol (df : DataFrame) (c : String) (v : List PdCell) : DataFrame :=
  if (df.cols.find? (fun p => p.1 == c)).isSome then
    ⟨df.cols.map (fun p => if p.1 == c then (p.1, v) else p)⟩
  else ⟨df.cols ++ [(c, v)]⟩

/-- Python `str()` of a cell, as applied by `astype(str)`.
Float repr is modelled for integral floats (the dataset's case);
NaN prints as "nan". -/
def astypeStr : PdCell → String
  | .str s => s
  | .num q => if q.den = 1 then toString q.num ++ ".0" else toString q
  | .nan => "nan"

/-- Python `str.replace('.', '')`: every '.' character is removed. -/
def stripDots (s : String) : String :=
  String.mk (s.data.filter (fun c => c ≠ '.'))

/-- Value of a digit string. -/
def digitsVal (l : List Char) : Nat :=
  l.foldl (fun n c => 10 * n + (c.toNat - 48)) 0

/-- Decimal numeral parser modelling what `pd.to_numeric` accepts on a
string: optional sign, digits with at most one decimal point, at least
one digit. -/
def parseNum (s : String) : Option Rat :=
  let l := s.data
  let neg := decide (l.head? = some '-')
  let signed := decide (l.head? = some '-') || decide (l.head? = some '+')
  let body := if signed then l.tail else l
  let ip := body.takeWhile (fun c => c ≠ '.')
  let rest := body.dropWhile (fun c => c ≠ '.')
  let fp := rest.tail
  if (rest.isEmpty || !(fp.contains '.')) && ip.all Char.isDigit && fp.all Char.isDigit
      && !(ip.isEmpty && fp.isEmpty) then
    let mag : Rat := (digitsVal ip : Rat) + (digitsVal fp : Rat) / (10 : Rat) ^ fp.length
    some (if neg then -mag else mag)
  else none

/-- `pd.to_numeric(·, errors='coerce')` on one cell: numbers pass
through, strings are parsed, anything unparseable becomes NaN. -/
def toNumeric : PdCell → PdCell
  | .str s =>
    match parseNum s with
    | some q => .num q
    | none => .nan
  | .num q => .num q
  | .nan => .nan

/-- Is this cell NaN? -/
def isNan : PdCell → Bool
  | .nan => true
  | _ => false

/-- `fillna(0)` on one cell. -/
def fillna0 (c : PdCell) : PdCell :=
  if isNan c then .num 0 else c

/-- Python `int()` truncation toward zero of a rational. -/
def ratTrunc (q : Rat) : Int := q.num.tdiv q.den

/-- `astype(int)` on one cell. In the pipeline this is only reached on
numeric cells (NaN rows were dropped just before); pandas would raise on
the other constructors, which are left unchanged here as dead branches. -/
def astypeInt : PdCell → PdCell
  | .num q => .num ((ratTrunc q : Int) : Rat)
  | c => c

/-- Keep exactly the entries whose mask bit is true (row selection). -/
def maskFilter {α : Type} : List Bool → List α → List α
  | true :: m, a :: l => a :: maskFilter m l
  | false :: m, _ :: l => maskFilter m l
  | _, _ => []

/-- `df.dropna(subset=[...])` row filter applied to every column. -/
def filterRows (df : DataFrame) (mask : List Bool) : DataFrame :=
  ⟨df.cols.map (fun p => (p.1, maskFilter mask p.2))⟩

/-- `load_and_clean_data` of src/app.py lines 19-32, translated
statement by statement:
line 22 `pd.read_csv` (absent file raises FileNotFoundError, caught at
line 30 returning an empty frame; an empty file raises EmptyDataError,
which is not caught);
line 23 `df['value'].astype(str).str.replace('.', '', regex=False)`;
line 24 `pd.to_numeric(df['value'], errors='coerce')`;
line 25 `df['value'].fillna(0)`;
line 26 `pd.to_numeric(df['year'], errors='coerce')`;
line 27 `df.dropna(subset=['year'])`;
line 28 `df['year'].astype(int)`. -/
def load_and_clean_data (input : ReadResult) : Except CleanError DataFrame :=
  match input with
  | .notFound => .ok ⟨[]⟩
  | .emptyFile => .error .emptyDataError
  | .table df0 =>
    match getCol? df0 "value" with
    | none => .error (.keyError "value")
    | some v0 =>
      let v1 := v0.map (fun c => PdCell.str (stripDots (astypeStr c)))
      let v2 := v1.map toNumeric
      let v3 := v2.map fillna0
      let df1 := setCol df0 "value" v3
      match getCol? df1 "year" with
      | none => .error (.keyError "year")
      | some y0 =>
        let y1 := y0.map toNumeric
        let df2 := setCol df1 "year" y1
        let mask := y1.map (fun c => !(isNan c))
        let df3 := filterRows df2 mask
        match getCol? df3 "year" with
        | none => .error (.keyError "year")
        | some y2 => .ok (setCol df3 "year" (y2.map astypeInt))

/-- Number of rows of a frame (length of its first column, pandas-style
for well-formed frames). -/
def nRows (df : DataFrame) : Nat :=
  ((df.cols.head?).map (fun p => p.2.length)).getD 0

/-- `df.empty`: true when the frame has no columns or no rows. -/
def dfEmpty (df : DataFrame) : Bool :=
  df.cols.isEmpty || nRows df == 0

/-- Whether `main` (src/app.py lines 42-45) proceeds past the
`if df.empty: return` guard to render a chart. A propagated exception
from loading also renders nothing. -/
def mainRenders (input : ReadResult) : Bool :=
  match load_and_clean_data input with
  | .error _ => false
  | .ok df => !(dfEmpty df)

/-- An input frame with exactly the six required columns in the dataset's
order. -/
def canonDf (ps rs ms pw ys vs : List PdCell) : DataFrame :=
  ⟨[("parameter", ps), ("region", rs), ("mode", ms), ("powertrain", pw),
    ("year", ys), ("value", vs)]⟩

/-- The per-cell effect of lines 23-25 on the `value` column. -/
def cleanValueCell (c : PdCell) : PdCell :=
  .num ((parseNum (stripDots (astypeStr c))).getD 0)

/-- The row-retention mask computed from the `year` column at line 27. -/
def yearMask (ys : List PdCell) : List Bool :=
  ys.map (fun c => !(isNan (toNumeric c)))

/-- Is this cell a string? -/
def isStrCell : PdCell → Bool
  | .str _ => true
  | _ => false

/-! ### Aggregation (src/app.py lines 83, 95, 166-170)

A filtered selection of rows is represented by its (group-key, value)
pairs; the filters of `main` only ever produce such a selection. -/

/-- `.groupby(key)['value'].sum()`: pandas sorts the group keys
ascending (`sort=True` default) and sums each group's values. -/
def groupSum (rows : List (String × Rat)) : List (String × Rat) :=
  let keys := List.insertionSort (fun a b => a ≤ b) (rows.map Prod.fst).dedup
  keys.map (fun k => (k, ((rows.filter (fun r => r.1 == k)).map Prod.snd).sum))

/-- The order used by `nlargest` / `sort_values(ascending=False)`. -/
def valGe (a b : String × Rat) : Prop := b.2 ≤ a.2

instance : DecidableRel valGe := fun a b => inferInstanceAs (Decidable (b.2 ≤ a.2))

instance : IsTotal (String × Rat) valGe := ⟨fun a b => le_total b.2 a.2⟩

instance : IsTrans (String × Rat) valGe := ⟨fun _ _ _ h1 h2 => le_trans h2 h1⟩

/-- `.sort_values(ascending=False)` (src/app.py line 166): a stable
sort descending by value. -/
def sortDescVal (l : List (String × Rat)) : List (String × Rat) :=
  List.insertionSort valGe l

/-- `Series.nlargest(n)` (src/app.py line 83): the first `n` entries of
the stable descending sort (pandas `keep='first'`). -/
def nlargest (n : Nat) (l : List (String × Rat)) : List (String × Rat) :=
  (sortDescVal l).take n

/-- The top-N aggregation of line 83: group, sum, take the n largest. -/
def topN (n : Nat) (rows : List (String × Rat)) : List (String × Rat) :=
  nlargest n (groupSum rows)

/-- The aggregated groups that `topN` leaves out. -/
def omittedBy (n : Nat) (rows : List (String × Rat)) : List (String × Rat) :=
  (sortDescVal (groupSum rows)).drop n

/-- Strict "descending by value, ties by ascending key" order. -/
def lexGT (a b : String × Rat) : Prop := b.2 < a.2 ∨ (a.2 = b.2 ∧ a.1 < b.1)

/-- Running sums starting from `acc`. -/
def cumsumFrom (acc : Rat) : List Rat → List Rat
  | [] => []
  | a :: l => (acc + a) :: cumsumFrom (acc + a) l

/-- `.cumsum()` (src/app.py line 169). -/
def cumsum (l : List Rat) : List Rat := cumsumFrom 0 l

/-- `100 * data['cumulative_sum'] / data['value'].sum()`
(src/app.py line 170). -/
def cumulativePerc (vals : List Rat) : List Rat :=
  (cumsum vals).map (fun c => 100 * c / vals.sum)

/-! ### Chat history handling (src/chatbot_app.py lines 69-88) -/

/-- One entry of `st.session_state.chat_history`. -/
structure ChatMsg where
  role : String
  parts : List String
deriving DecidableEq

/-- The dict appended at line 75. -/
def userMsg (p : String) : ChatMsg := ⟨"user", [p]⟩

/-- The dict appended at line 86. -/
def modelMsg (r : String) : ChatMsg := ⟨"model", [r]⟩

/-- The chat submission handler (src/chatbot_app.py lines 69-88).
`provider` abstracts `get_gemini_response` (lines 17-35), which returns
the reply text or, on any provider exception, `None`; it receives the
history as it stands at the call site (line 82), i.e. with the user
message already appended (line 75). Line 85 guards the model append
with `if response_text:`, which is Python truthiness: both `None` and
the empty string fail it, so an empty reply appends nothing. -/
def submitChat (provider : List ChatMsg → String → Option String)
    (configured : Bool) (history : List ChatMsg) (p : String) : List ChatMsg :=
  if configured then
    let h1 := history ++ [userMsg p]
    match provider h1 p with
    | some r => if r = "" then h1 else h1 ++ [modelMsg r]
    | none => h1
  else history

/-- Did a cleaning run succeed (no propagated exception)? -/
def exceptIsOk : Except CleanError DataFrame → Bool
  | .ok _ => true
  | .error _ => false

/-- Observer: a named column of the cleaned frame, when cleaning
succeeded. -/
def cleanedCol (input : ReadResult) (c : String) : Option (List PdCell) :=
  match load_and_clean_data input with
  | .ok df => getCol? df c
  | .error _ => none

/-- Observer: the row count of the cleaned frame (0 when cleaning
failed). -/
def cleanedRowCount (input : ReadResult) : Nat :=
  match load_and_clean_data input with
  | .ok df => nRows df
  | .error _ => 0

/-! ### Evaluation of the pipeline on canonical frames -/

theorem cleanValue_point (c : PdCell) :
    fillna0 (toNumeric (PdCell.str (stripDots (astypeStr c)))) = cleanValueCell c := by
  simp only [cleanValueCell, toNumeric]
  cases h : parseNum (stripDots (astypeStr c)) with
  | none => simp [fillna0, isNan]
  | some q => simp [fillna0, isNan]

/-- Raw normal form of `load_and_clean_data` on a canonical frame. -/
theorem load_canon_raw (ps rs ms pw ys vs : List PdCell) :
    load_and_clean_data (.table (canonDf ps rs ms pw ys vs)) =
      .ok (canonDf
        (maskFilter ((ys.map toNumeric).map (fun c => !(isNan c))) ps)
        (maskFilter ((ys.map toNumeric).map (fun c => !(isNan c))) rs)
        (maskFilter ((ys.map toNumeric).map (fun c => !(isNan c))) ms)
        (maskFilter ((ys.map toNumeric).map (fun c => !(isNan c))) pw)
        ((maskFilter ((ys.map toNumeric).map (fun c => !(isNan c))) (ys.map toNumeric)).map astypeInt)
        (maskFilter ((ys.map toNumeric).map (fun c => !(isNan c)))
          (((vs.map (fun c => PdCell.str (stripDots (astypeStr c)))).map toNumeric).map fillna0))) :=
  rfl

/-- `load_and_clean_data` on a canonical frame: rows are retained exactly
when the year cell is numeric after coercion; surviving years are
truncated to integers; surviving values are zero-filled parses of the
dot-stripped strings; the four text columns pass through untouched. -/
theorem load_canon (ps rs ms pw ys vs : List PdCell) :
    load_and_clean_data (.table (canonDf ps rs ms pw ys vs)) =
      .ok (canonDf
        (maskFilter (yearMask ys) ps)
        (maskFilter (yearMask ys) rs)
        (maskFilter (yearMask ys) ms)
        (maskFilter (yearMask ys) pw)
        ((maskFilter (yearMask ys) (ys.map toNumeric)).map astypeInt)
        (maskFilter (yearMask ys) (vs.map cleanValueCell))) := by
  rw [load_canon_raw]
  simp only [List.map_map, yearMask, Function.comp_def, cleanValue_point]

/-- The cleaned frame of a canonical input, as named by `load_canon`. -/
theorem cleanedCol_canon (ps rs ms pw ys vs : List PdCell) (c : String) :
    cleanedCol (.table (canonDf ps rs ms pw ys vs)) c =
      getCol? (canonDf (maskFilter (yearMask ys) ps) (maskFilter (yearMask ys) rs)
        (maskFilter (yearMask ys) ms) (maskFilter (yearMask ys) pw)
        ((maskFilter (yearMask ys) (ys.map toNumeric)).map astypeInt)
        (maskFilter (yearMask ys) (vs.map cleanValueCell))) c := by
  unfold cleanedCol
  rw [load_canon]

theorem cleanedRowCount_canon (ps rs ms pw ys vs : List PdCell) :
    cleanedRowCount (.table (canonDf ps rs ms pw ys vs)) =
      (maskFilter (yearMask ys) ps).length := by
  unfold cleanedRowCount
  rw [load_canon]
  rfl

theorem getCol?_canon_parameter (ps rs ms pw ys vs : List PdCell) :
    getCol? (canonDf ps rs ms pw ys vs) "parameter" = some ps := rfl

theorem getCol?_canon_region (ps rs ms pw ys vs : List PdCell) :
    getCol? (canonDf ps rs ms pw ys vs) "region" = some rs := rfl

theorem getCol?_canon_mode (ps rs ms pw ys vs : List PdCell) :
    getCol? (canonDf ps rs ms pw ys vs) "mode" = some ms := rfl

theorem getCol?_canon_powertrain (ps rs ms pw ys vs : List PdCell) :
    getCol? (canonDf ps rs ms pw ys vs) "powertrain" = some pw := rfl

theorem getCol?_canon_year (ps rs ms pw ys vs : List PdCell) :
    getCol? (canonDf ps rs ms pw ys vs) "year" = some ys := rfl

theorem getCol?_canon_value (ps rs ms pw ys vs : List PdCell) :
    getCol? (canonDf ps rs ms pw ys vs) "value" = some vs := rfl

theorem maskFilter_sublist {α : Type} :
    ∀ (m : List Bool) (l : List α), List.Sublist (maskFilter m l) l
  | [], [] => List.Sublist.refl _
  | [], _ :: _ => by simp [maskFilter]
  | _ :: _, [] => by simp [maskFilter]
  | true :: m, a :: l => List.Sublist.cons₂ a (maskFilter_sublist m l)
  | false :: m, a :: l => List.Sublist.cons a (maskFilter_sublist m l)

theorem length_maskFilter_map {α β : Type} (f : β → Bool) :
    ∀ (ys : List β) (l : List α), l.length = ys.length →
      (maskFilter (ys.map f) l).length = ys.countP f
  | [], [], _ => rfl
  | [], _ :: _, h => by simp at h
  | _ :: _, [], h => by simp at h
  | y :: ys, a :: l, h => by
    have h' : l.length = ys.length := by simpa using h
    cases hf : f y with
    | true => simp [maskFilter, hf, List.countP_cons, length_maskFilter_map f ys l h']
    | false => simp [maskFilter, hf, List.countP_cons, length_maskFilter_map f ys l h']

theorem mem_maskFilter_map {α β : Type} (f : α → Bool) (g : α → β) :
    ∀ (l : List α) (x : β), x ∈ maskFilter (l.map f) (l.map g) →
      ∃ a, a ∈ l ∧ f a = true ∧ x = g a := by
  intro l
  induction l with
  | nil =>
    intro x hx
    have hx' : x ∈ ([] : List β) := hx
    simp at hx'
  | cons a l ih =>
    intro x hx
    rw [List.map_cons, List.map_cons] at hx
    cases hf : f a with
    | true =>
      rw [hf] at hx
      have hx' : x ∈ g a :: maskFilter (l.map f) (l.map g) := hx
      rcases List.mem_cons.mp hx' with h | h
      · exact ⟨a, List.mem_cons_self a l, hf, h⟩
      · obtain ⟨a', ha', hfa', hxa'⟩ := ih x h
        exact ⟨a', List.mem_cons_of_mem _ ha', hfa', hxa'⟩
    | false =>
      rw [hf] at hx
      have hx' : x ∈ maskFilter (l.map f) (l.map g) := hx
      obtain ⟨a', ha', hfa', hxa'⟩ := ih x hx'
      exact ⟨a', List.mem_cons_of_mem _ ha', hfa', hxa'⟩

theorem toNumeric_num_or_nan (c : PdCell) :
    (∃ q, toNumeric c = .num q) ∨ toNumeric c = .nan := by
  cases c with
  | str s =>
    cases h : parseNum s with
    | some q => exact .inl ⟨q, by simp [toNumeric, h]⟩
    | none => exact .inr (by simp [toNumeric, h])
  | num q => exact .inl ⟨q, rfl⟩
  | nan => exact .inr rfl

theorem getCol?_setCol_none (df : DataFrame) (c c' : String) (v : List PdCell)
    (hcc : c' ≠ c) (h : getCol? df c = none) : getCol? (setCol df c' v) c = none := by
  have h0 : df.cols.find? (fun p => p.1 == c) = none := by
    cases hfind : df.cols.find? (fun p => p.1 == c) with
    | none => rfl
    | some x => rw [getCol?, hfind] at h; simp at h
  rw [List.find?_eq_none] at h0
  unfold setCol
  by_cases hs : (df.cols.find? (fun p => p.1 == c')).isSome
  · rw [if_pos hs]
    unfold getCol?
    have : (df.cols.map fun p => if p.1 == c' then (p.1, v) else p).find?
        (fun p => p.1 == c) = none := by
      rw [List.find?_eq_none]
      intro x hx
      obtain ⟨y, hy, hxy⟩ := List.mem_map.mp hx
      have hx1 : x.1 = y.1 := by rw [← hxy]; split <;> rfl
      rw [hx1]
      exact h0 y hy
    rw [this]
    rfl
  · rw [if_neg hs]
    unfold getCol?
    have : (df.cols ++ [(c', v)]).find? (fun p => p.1 == c) = none := by
      rw [List.find?_eq_none]
      intro x hx
      rcases List.mem_append.mp hx with hx | hx
      · exact h0 x hx
      · have hx' : x = (c', v) := by simpa using hx
        subst hx'
        simp [hcc]
    rw [this]
    rfl

theorem year_cells_are_integers (ys : List PdCell) :
    ∀ c ∈ (maskFilter (yearMask ys) (ys.map toNumeric)).map astypeInt,
      ∃ z : Int, c = .num (z : Rat) := by
  intro c hc
  obtain ⟨c', hc', hcc⟩ := List.mem_map.mp hc
  obtain ⟨a, _, hfa, hga⟩ :=
    mem_maskFilter_map (fun c => !(isNan (toNumeric c))) toNumeric ys c' hc'
  rcases toNumeric_num_or_nan a with ⟨q, hq⟩ | hq
  · exact ⟨ratTrunc q, by rw [← hcc, hga, hq]; rfl⟩
  · rw [hq] at hfa
    exact absurd hfa (by decide)

/-! ### The claims -/

/-- C1: cleaning never drops a row because of its value cell — the
retention mask is computed from the year column alone — and each
retained value cell becomes the numeric parse of its dot-stripped
string form, or 0.0 when that parse fails (including missing cells,
whose string form "nan" fails to parse). -/
theorem cleaning_zero_fills_unparseable_values (ps rs ms pw ys vs : List PdCell) :
    exceptIsOk (load_and_clean_data (.table (canonDf ps rs ms pw ys vs))) = true
      ∧ cleanedCol (.table (canonDf ps rs ms pw ys vs)) "value" =
          some (maskFilter (yearMask ys) (vs.map cleanValueCell))
      ∧ ∀ c : PdCell, parseNum (stripDots (astypeStr c)) = none → cleanValueCell c = .num 0 := by
  refine ⟨?_, ?_, ?_⟩
  · rw [load_canon ps rs ms pw ys vs]
    rfl
  · rw [cleanedCol_canon]
    rfl
  · intro c h
    simp [cleanValueCell, h]

/-- C1 witness: a frame whose single row has the unparseable value
"N/A" and a parseable year keeps the row with value 0. -/
theorem cleaning_zero_fills_unparseable_values_witness :
    cleanedCol (.table (canonDf [.str "EV sales"] [.str "USA"] [.str "Cars"]
        [.str "EV"] [.str "2020"] [.str "N/A"])) "value" = some [PdCell.num 0] := by
  obtain ⟨_, h2, h3⟩ := cleaning_zero_fills_unparseable_values
    [.str "EV sales"] [.str "USA"] [.str "Cars"] [.str "EV"] [.str "2020"] [.str "N/A"]
  rw [h2]
  rw [show yearMask [PdCell.str "2020"] = [true] by decide]
  show some [cleanValueCell (.str "N/A")] = _
  rw [h3 (.str "N/A") (by decide)]

/-- C2: cleaning drops exactly the rows whose year cell fails numeric
coercion — the output row count is the number of rows with a coercible
year — and every surviving year cell is an integer obtained by
truncating the coerced number. -/
theorem cleaning_drops_unparseable_years (ps rs ms pw ys vs : List PdCell)
    (hp : ps.length = ys.length) :
    cleanedCol (.table (canonDf ps rs ms pw ys vs)) "year" =
        some ((maskFilter (yearMask ys) (ys.map toNumeric)).map astypeInt)
      ∧ cleanedRowCount (.table (canonDf ps rs ms pw ys vs)) =
          ys.countP (fun c => !(isNan (toNumeric c)))
      ∧ ∀ c ∈ (maskFilter (yearMask ys) (ys.map toNumeric)).map astypeInt,
          ∃ z : Int, c = .num (z : Rat) := by
  refine ⟨?_, ?_, year_cells_are_integers ys⟩
  · rw [cleanedCol_canon]
    rfl
  · rw [cleanedRowCount_canon]
    exact length_maskFilter_map _ ys ps hp

/-- C2 witness: of two rows, only the one with the parseable year
"2020" survives; the row with year "abc" is dropped. -/
theorem cleaning_drops_unparseable_years_witness :
    cleanedRowCount (.table (canonDf [.str "p1", .str "p2"] [.str "r1", .str "r2"]
        [.str "m1", .str "m2"] [.str "EV", .str "EV"] [.str "2020", .str "abc"]
        [.str "1", .str "2"])) = 1 := by
  obtain ⟨_, h2, _⟩ := cleaning_drops_unparseable_years
    [.str "p1", .str "p2"] [.str "r1", .str "r2"] [.str "m1", .str "m2"]
    [.str "EV", .str "EV"] [.str "2020", .str "abc"] [.str "1", .str "2"] rfl
  rw [h2]
  decide

/-- C8: line 23 removes every '.' character from the value string
before parsing, whether it was a thousands or a decimal separator: each
cleaned value is the parse of the dot-stripped string (zero-filled on
failure), and the input "3.5" comes out as 35, not as 3.5. -/
theorem value_dots_always_stripped (ps rs ms pw ys vs : List PdCell) :
    cleanedCol (.table (canonDf ps rs ms pw ys vs)) "value" =
        some (maskFilter (yearMask ys) (vs.map cleanValueCell))
      ∧ (∀ s, cleanValueCell (.str s) = .num ((parseNum (stripDots s)).getD 0))
      ∧ cleanValueCell (.str "3.5") = .num 35
      ∧ decide (cleanValueCell (.str "3.5") = .num (35 / 10 : Rat)) = false := by
  have h35 : cleanValueCell (.str "3.5") = .num 35 := by
    simp +decide [cleanValueCell, stripDots, astypeStr, parseNum, digitsVal]
  refine ⟨by rw [cleanedCol_canon]; rfl, fun s => rfl, h35, ?_⟩
  rw [decide_eq_false_iff_not]
  rw [h35]
  simp only [ne_eq, PdCell.num.injEq]
  norm_num

/-- C3 counterexample: a frame lacking the required column "parameter"
cleans successfully rather than failing, and a completely empty input
raises EmptyDataError instead of returning an empty table. -/
theorem cleaning_accepts_missing_parameter_column :
    exceptIsOk (load_and_clean_data (.table ⟨[("region", [.str "USA"]),
        ("mode", [.str "Cars"]), ("powertrain", [.str "EV"]), ("year", [.str "2020"]),
        ("value", [.str "1"])]⟩)) = true
      ∧ load_and_clean_data .emptyFile = .error .emptyDataError :=
  ⟨rfl, rfl⟩

/-- C3 amended: cleaning fails (with a KeyError) exactly on a missing
`value` or `year` column; the other four required columns are not
checked; a completely empty input propagates EmptyDataError rather
than yielding an empty table; a frame with the required columns and no
rows cleans to an empty table. -/
theorem cleaning_error_conditions :
    (∀ df : DataFrame, getCol? df "value" = none →
        load_and_clean_data (.table df) = .error (.keyError "value"))
      ∧ (∀ df : DataFrame, (getCol? df "value").isSome = true → getCol? df "year" = none →
          load_and_clean_data (.table df) = .error (.keyError "year"))
      ∧ load_and_clean_data .emptyFile = .error .emptyDataError
      ∧ load_and_clean_data (.table (canonDf [] [] [] [] [] [])) =
          .ok (canonDf [] [] [] [] [] [])
      ∧ dfEmpty (canonDf [] [] [] [] [] []) = true := by
  refine ⟨?_, ?_, rfl, ?_, rfl⟩
  · intro df h
    simp only [load_and_clean_data]
    rw [h]
  · intro df hv hy
    obtain ⟨v0, hv0⟩ := Option.isSome_iff_exists.mp hv
    simp only [load_and_clean_data]
    rw [hv0]
    dsimp only
    rw [getCol?_setCol_none df "year" "value"
      (((v0.map fun c => PdCell.str (stripDots (astypeStr c))).map toNumeric).map fillna0)
      (by decide) hy]
  · rw [load_canon]
    rfl

/-- C3 witness for the amended statement: a frame without a value
column fails with KeyError "value"; one with value but no year column
fails with KeyError "year". -/
theorem cleaning_error_conditions_witness :
    load_and_clean_data (.table ⟨[("year", [PdCell.str "2020"])]⟩) =
        .error (.keyError "value")
      ∧ load_and_clean_data (.table ⟨[("value", [PdCell.str "1"])]⟩) =
        .error (.keyError "year") :=
  ⟨cleaning_error_conditions.1 ⟨[("year", [PdCell.str "2020"])]⟩ rfl,
   cleaning_error_conditions.2.1 ⟨[("value", [PdCell.str "1"])]⟩ rfl rfl⟩

/-- C4 counterexample: the value string "-5" survives cleaning as the
negative number -5, so cleaned values are not always non-negative. -/
theorem cleaned_value_can_be_negative :
    cleanedCol (.table (canonDf [.str "EV sales"] [.str "USA"] [.str "Cars"]
        [.str "EV"] [.str "2020"] [.str "-5"])) "value" = some [PdCell.num (-5)]
      ∧ ¬ (0 ≤ (-5 : Rat)) := by
  refine ⟨?_, by norm_num⟩
  rw [cleanedCol_canon]
  rw [show yearMask [PdCell.str "2020"] = [true] by decide]
  show some [cleanValueCell (.str "-5")] = _
  simp +decide [cleanValueCell, stripDots, astypeStr, parseNum, digitsVal]

/-- C4 amended: after cleaning, every value cell is a number (never NaN
nor a string) — though possibly negative — and every year cell is an
integer-valued number. -/
theorem cleaned_cells_are_numeric (ps rs ms pw ys vs : List PdCell) :
    cleanedCol (.table (canonDf ps rs ms pw ys vs)) "value" =
        some (maskFilter (yearMask ys) (vs.map cleanValueCell))
      ∧ (∀ c ∈ maskFilter (yearMask ys) (vs.map cleanValueCell),
          (∃ q : Rat, c = .num q) ∧ isNan c = false)
      ∧ cleanedCol (.table (canonDf ps rs ms pw ys vs)) "year" =
          some ((maskFilter (yearMask ys) (ys.map toNumeric)).map astypeInt)
      ∧ ∀ c ∈ (maskFilter (yearMask ys) (ys.map toNumeric)).map astypeInt,
          ∃ z : Int, c = .num (z : Rat) := by
  refine ⟨by rw [cleanedCol_canon]; rfl, ?_, by rw [cleanedCol_canon]; rfl,
    year_cells_are_integers ys⟩
  intro c hc
  have hc' : c ∈ vs.map cleanValueCell :=
    (maskFilter_sublist (yearMask ys) (vs.map cleanValueCell)).subset hc
  obtain ⟨v, _, hv⟩ := List.mem_map.mp hc'
  refine ⟨⟨(parseNum (stripDots (astypeStr v))).getD 0, hv ▸ rfl⟩, ?_⟩
  rw [← hv]
  rfl

/-- C4 witness: on a one-row frame with value "N/A" and year "2020",
the surviving value cell is a number, not NaN. -/
theorem cleaned_cells_are_numeric_witness :
    isNan (PdCell.num 0) = false := by
  obtain ⟨_, h2, _, _⟩ := cleaned_cells_are_numeric
    [.str "p"] [.str "r"] [.str "m"] [.str "EV"] [.str "2020"] [.str "N/A"]
  exact (h2 (PdCell.num 0) (by decide)).2

/-- C7 counterexample: a numeric region cell is left as a number by the
cleaning pass; no stringification of the text columns happens. -/
theorem region_cell_not_stringified :
    cleanedCol (.table (canonDf [.str "p"] [.num 5] [.str "m"] [.str "EV"]
        [.str "2020"] [.str "1"])) "region" = some [PdCell.num 5]
      ∧ isStrCell (PdCell.num 5) = false := by
  refine ⟨?_, rfl⟩
  rw [cleanedCol_canon]
  rw [show yearMask [PdCell.str "2020"] = [true] by decide]
  rfl

/-- C7 amended: cleaning carries the parameter, region, mode and
powertrain cells through unchanged (no type coercion); they are only
affected by whole-row drops from the year filter. -/
theorem text_columns_pass_through (ps rs ms pw ys vs : List PdCell) :
    cleanedCol (.table (canonDf ps rs ms pw ys vs)) "parameter" =
        some (maskFilter (yearMask ys) ps)
      ∧ cleanedCol (.table (canonDf ps rs ms pw ys vs)) "region" =
          some (maskFilter (yearMask ys) rs)
      ∧ cleanedCol (.table (canonDf ps rs ms pw ys vs)) "mode" =
          some (maskFilter (yearMask ys) ms)
      ∧ cleanedCol (.table (canonDf ps rs ms pw ys vs)) "powertrain" =
          some (maskFilter (yearMask ys) pw) := by
  refine ⟨?_, ?_, ?_, ?_⟩ <;> (rw [cleanedCol_canon]; rfl)

/-- C9: a missing input file is caught and turned into an empty frame,
and `main` then returns before rendering any chart. -/
theorem missing_file_empty_frame_no_chart :
    load_and_clean_data .notFound = .ok ⟨[]⟩
      ∧ dfEmpty ⟨[]⟩ = true
      ∧ mainRenders .notFound = false :=
  ⟨rfl, rfl, rfl⟩

/-- C10 counterexample: a provider call that succeeds with the empty
string — which line 85's truthiness test `if response_text:` treats as
false — appends no model entry, so the history grows by one entry, not
two. -/
theorem chat_empty_reply_appends_no_model_entry :
    submitChat (fun _ _ => some "") true [] "hi" = [userMsg "hi"]
      ∧ (submitChat (fun _ _ => some "") true [] "hi").length = 1 :=
  ⟨rfl, rfl⟩

/-- C10 amended: with the API key configured, the user message is
appended to the history before the provider call (the provider sees
it); a call returning non-empty text appends exactly the user and then
the model entry, while a failed call — or one returning the empty
string, falsy under line 85's truthiness test — leaves the user entry
appended with no model entry, so the history then ends with a user
entry. -/
theorem chat_history_not_atomic (provider : List ChatMsg → String → Option String)
    (history : List ChatMsg) (p : String) :
    (∀ r, provider (history ++ [userMsg p]) p = some r → r ≠ "" →
        submitChat provider true history p = history ++ [userMsg p, modelMsg r]
          ∧ (submitChat provider true history p).length = history.length + 2)
      ∧ (provider (history ++ [userMsg p]) p = none →
          submitChat provider true history p = history ++ [userMsg p]
            ∧ (submitChat provider true history p).length = history.length + 1
            ∧ (submitChat provider true history p).getLast? = some (userMsg p))
      ∧ (provider (history ++ [userMsg p]) p = some "" →
          submitChat provider true history p = history ++ [userMsg p]
            ∧ (submitChat provider true history p).length = history.length + 1
            ∧ (submitChat provider true history p).getLast? = some (userMsg p)) := by
  refine ⟨?_, ?_, ?_⟩
  · intro r h hr
    constructor
    · simp [submitChat, h, hr]
    · simp [submitChat, h, hr]
  · intro h
    refine ⟨by simp [submitChat, h], by simp [submitChat, h], ?_⟩
    simp [submitChat, h]
  · intro h
    refine ⟨by simp [submitChat, h], by simp [submitChat, h], ?_⟩
    simp [submitChat, h]

/-- C10 witness: a provider replying "ok", one failing, and one
replying the empty string, each on an empty history. -/
theorem chat_history_not_atomic_witness :
    submitChat (fun _ _ => some "ok") true [] "hi" = [userMsg "hi", modelMsg "ok"]
      ∧ submitChat (fun _ _ => none) true [] "hi" = [userMsg "hi"]
      ∧ (submitChat (fun _ _ => some "") true [] "hi").getLast? = some (userMsg "hi") := by
  refine ⟨?_, ?_, ?_⟩
  · exact ((chat_history_not_atomic (fun _ _ => some "ok") [] "hi").1 "ok" rfl
      (by decide)).1
  · exact ((chat_history_not_atomic (fun _ _ => none) [] "hi").2.1 rfl).1
  · exact ((chat_history_not_atomic (fun _ _ => some "") [] "hi").2.2 rfl).2.2

/-! ### Cumulative sums (for the Pareto view) -/

theorem cumsumFrom_cons (acc a : Rat) (l : List Rat) :
    cumsumFrom acc (a :: l) = (acc + a) :: cumsumFrom (acc + a) l := rfl

theorem cumsumFrom_getLast? :
    ∀ (l : List Rat) (acc : Rat), l ≠ [] →
      (cumsumFrom acc l).getLast? = some (acc + l.sum)
  | [], _, h => absurd rfl h
  | [a], acc, _ => by simp [cumsumFrom]
  | a :: b :: l, acc, _ => by
    rw [cumsumFrom_cons, cumsumFrom_cons, List.getLast?_cons_cons, ← cumsumFrom_cons,
      cumsumFrom_getLast? (b :: l) (acc + a) (by simp)]
    simp [add_assoc]

theorem cumsumFrom_chain (l : List Rat) (h : ∀ v ∈ l, 0 ≤ v) :
    ∀ acc, List.Chain' (· ≤ ·) (cumsumFrom acc l) ∧ ∀ x ∈ cumsumFrom acc l, acc ≤ x := by
  induction l with
  | nil =>
    intro acc
    refine ⟨by simp [cumsumFrom], ?_⟩
    intro x hx
    simp [cumsumFrom] at hx
  | cons a l ih =>
    intro acc
    have ha : 0 ≤ a := h a (List.mem_cons_self a l)
    have ih' := ih (fun v hv => h v (List.mem_cons_of_mem _ hv)) (acc + a)
    constructor
    · rw [cumsumFrom_cons, List.chain'_cons']
      exact ⟨fun y hy => ih'.2 y (List.mem_of_mem_head? hy), ih'.1⟩
    · intro x hx
      rw [cumsumFrom_cons] at hx
      rcases List.mem_cons.mp hx with rfl | hx
      · exact le_add_of_nonneg_right ha
      · exact le_trans (le_add_of_nonneg_right ha) (ih'.2 x hx)

/-- C6 counterexample: negative cleaned values reach the Pareto view,
and then the cumulative-percentage series can decrease: for the
descending aggregation [5, -1] with non-zero total the series is
[125, 100]. -/
theorem pareto_percentages_can_decrease :
    List.Pairwise (fun a b : Rat => b ≤ a) [5, -1]
      ∧ ([5, -1] : List Rat).sum ≠ 0
      ∧ cumulativePerc [5, -1] = [125, 100]
      ∧ ¬ List.Chain' (· ≤ ·) (cumulativePerc [5, -1]) := by
  have he : cumulativePerc [5, -1] = [125, 100] := by
    norm_num [cumulativePerc, cumsum, cumsumFrom]
  refine ⟨by decide, by norm_num, he, ?_⟩
  rw [he]
  simp only [List.chain'_cons, List.chain'_singleton, and_true]
  decide

/-- C6 amended: for a descending aggregation whose values are all
non-negative (as with count data) and whose total is non-zero, the
cumulative-percentage series is non-decreasing and ends exactly at
100. -/
theorem pareto_cumulative_percentages (vals : List Rat)
    (hdesc : vals.Pairwise (fun a b => b ≤ a))
    (hnn : ∀ v ∈ vals, 0 ≤ v) (hsum : vals.sum ≠ 0) :
    List.Chain' (· ≤ ·) (cumulativePerc vals)
      ∧ (cumulativePerc vals).getLast? = some 100 := by
  have hpos : 0 < vals.sum := lt_of_le_of_ne (List.sum_nonneg hnn) (Ne.symm hsum)
  constructor
  · have hc := (cumsumFrom_chain vals hnn 0).1
    unfold cumulativePerc
    rw [List.chain'_map]
    exact hc.imp fun a b hab =>
      (div_le_div_iff_of_pos_right hpos).mpr (mul_le_mul_of_nonneg_left hab (by norm_num))
  · have hne : vals ≠ [] := by rintro rfl; simp at hsum
    unfold cumulativePerc
    rw [List.getLast?_map, cumsum, cumsumFrom_getLast? vals 0 hne]
    simp [mul_div_assoc, div_self hsum]

/-- C6 witness: the singleton aggregation [1]. -/
theorem pareto_cumulative_percentages_witness :
    List.Chain' (· ≤ ·) (cumulativePerc [1])
      ∧ (cumulativePerc [1]).getLast? = some 100 :=
  pareto_cumulative_percentages [1] (by simp) (by simp) (by simp)

/-! ### Top-N aggregation -/

theorem mem_groupSum_eq (rows : List (String × Rat)) {a : String × Rat}
    (ha : a ∈ groupSum rows) :
    a = (a.1, ((rows.filter (fun r => r.1 == a.1)).map Prod.snd).sum) := by
  unfold groupSum at ha
  obtain ⟨k, _, hk⟩ := List.mem_map.mp ha
  rw [← hk]

theorem groupSum_key_inj (rows : List (String × Rat)) {a b : String × Rat}
    (ha : a ∈ groupSum rows) (hb : b ∈ groupSum rows) (h : a.1 = b.1) : a = b := by
  rw [mem_groupSum_eq rows ha, mem_groupSum_eq rows hb, h]

theorem groupSum_keys_strict (rows : List (String × Rat)) :
    (groupSum rows).Pairwise (fun a b => a.1 < b.1) := by
  unfold groupSum
  rw [List.pairwise_map]
  have hsorted : List.Sorted (· ≤ ·)
      (List.insertionSort (fun a b => a ≤ b) (rows.map Prod.fst).dedup) :=
    List.sorted_insertionSort _ _
  have hnodup : (List.insertionSort (fun a b => a ≤ b) (rows.map Prod.fst).dedup).Nodup :=
    (List.perm_insertionSort _ _).nodup_iff.mpr (List.nodup_dedup _)
  exact (hsorted.and hnodup).imp fun h => lt_of_le_of_ne h.1 h.2

theorem pair_sublist_of_keyLt :
    ∀ (l : List (String × Rat)), l.Pairwise (fun a b => a.1 < b.1) →
      ∀ (a b : String × Rat), a ∈ l → b ∈ l → a.1 < b.1 → List.Sublist [a, b] l
  | [], _, a, _, ha, _, _ => absurd ha (by simp)
  | x :: t, hl, a, b, ha, hb, hab => by
    rcases List.mem_cons.mp ha with rfl | hat
    · rcases List.mem_cons.mp hb with rfl | hbt
      · exact absurd hab (lt_irrefl _)
      · exact List.Sublist.cons₂ a (List.singleton_sublist.mpr hbt)
    · rcases List.mem_cons.mp hb with rfl | hbt
      · have h2 := (List.pairwise_cons.mp hl).1 a hat
        exact absurd (hab.trans h2) (lt_irrefl _)
      · exact List.Sublist.cons x
          (pair_sublist_of_keyLt t (List.pairwise_cons.mp hl).2 a b hat hbt hab)

theorem eq_of_pair_sublist_both {α : Type} :
    ∀ (s : List α), s.Nodup → ∀ {a b : α},
      List.Sublist [a, b] s → List.Sublist [b, a] s → a = b
  | [], _, _, _, h1, _ => by simp at h1
  | x :: t, hnd, a, b, h1, h2 => by
    obtain ⟨hx, hndt⟩ := List.nodup_cons.mp hnd
    cases h1 with
    | cons _ h1' =>
      cases h2 with
      | cons _ h2' => exact eq_of_pair_sublist_both t hndt h1' h2'
      | cons₂ _ h2' =>
        have hbt : x ∈ t := h1'.subset (by simp)
        exact absurd hbt hx
    | cons₂ _ h1' =>
      cases h2 with
      | cons _ h2' =>
        have hat : x ∈ t := h2'.subset (by simp)
        exact absurd hat hx
      | cons₂ _ h2' => rfl

theorem sortDescVal_groupSum_pairwise (rows : List (String × Rat)) :
    (sortDescVal (groupSum rows)).Pairwise lexGT := by
  have hkeys := groupSum_keys_strict rows
  have hnd : (groupSum rows).Nodup :=
    hkeys.imp fun h heq => absurd (heq ▸ h) (lt_irrefl _)
  have hsorted : (List.insertionSort valGe (groupSum rows)).Pairwise valGe :=
    List.sorted_insertionSort valGe (groupSum rows)
  have hndS : (List.insertionSort valGe (groupSum rows)).Nodup :=
    (List.perm_insertionSort valGe (groupSum rows)).nodup_iff.mpr hnd
  rw [sortDescVal, List.pairwise_iff_forall_sublist]
  intro a b hab
  have hge : b.2 ≤ a.2 := List.pairwise_iff_forall_sublist.mp hsorted hab
  rcases lt_or_eq_of_le hge with hlt | heq
  · exact Or.inl hlt
  · refine Or.inr ⟨heq.symm, ?_⟩
    have hag : a ∈ groupSum rows :=
      (List.perm_insertionSort valGe (groupSum rows)).mem_iff.mp (hab.subset (by simp))
    have hbg : b ∈ groupSum rows :=
      (List.perm_insertionSort valGe (groupSum rows)).mem_iff.mp (hab.subset (by simp))
    have hne : a ≠ b := by
      intro h
      subst h
      exact (List.pairwise_iff_forall_sublist.mp hndS hab) rfl
    have hkne : a.1 ≠ b.1 := fun hk => hne (groupSum_key_inj rows hag hbg hk)
    rcases lt_or_gt_of_ne hkne with hk | hk
    · exact hk
    · have hsub : List.Sublist [b, a] (groupSum rows) :=
        pair_sublist_of_keyLt (groupSum rows) hkeys b a hbg hag hk
      have hba : List.Sublist [b, a] (List.insertionSort valGe (groupSum rows)) :=
        List.pair_sublist_insertionSort (le_of_eq heq.symm) hsub
      exact absurd (eq_of_pair_sublist_both _ hndS hab hba) hne

/-- C5 counterexample: with aggregated groups A ↦ 2 and B ↦ 1 and
n = 1, the returned entry has value 2 and the omitted entry has value
1, and 2 ≤ 1 fails — the claimed inequality direction is inverted. -/
theorem topN_returned_not_le_omitted :
    topN 1 [("A", (2 : Rat)), ("B", 1)] = [("A", 2)]
      ∧ omittedBy 1 [("A", (2 : Rat)), ("B", 1)] = [("B", 1)]
      ∧ ¬ ((2 : Rat) ≤ 1) := by
  refine ⟨?_, ?_, by decide⟩
  · simp +decide [topN, nlargest, sortDescVal, groupSum, List.insertionSort,
      List.orderedInsert, List.dedup, List.filter, valGe]
  · simp +decide [omittedBy, sortDescVal, groupSum, List.insertionSort,
      List.orderedInsert, List.dedup, List.filter, valGe]

/-- C5 amended: the top-N aggregation returns at most n entries,
sorted descending by summed value with ties in ascending lexicographic
key order, and every omitted group's value is ≤ every returned
group's value. -/
theorem topN_spec (rows : List (String × Rat)) (n : Nat) :
    (topN n rows).length ≤ n
      ∧ (topN n rows).Pairwise lexGT
      ∧ ∀ a ∈ topN n rows, ∀ b ∈ omittedBy n rows, b.2 ≤ a.2 := by
  have hpw := sortDescVal_groupSum_pairwise rows
  refine ⟨List.length_take_le n _, ?_, ?_⟩
  · exact List.Pairwise.sublist (List.take_sublist n _) hpw
  · intro a ha b hb
    have hsorted : (sortDescVal (groupSum rows)).Pairwise valGe :=
      List.sorted_insertionSort valGe (groupSum rows)
    have h2 : ((sortDescVal (groupSum rows)).take n ++
        (sortDescVal (groupSum rows)).drop n).Pairwise valGe := by
      rw [List.take_append_drop]
      exact hsorted
    exact (List.pairwise_append.mp h2).2.2 a ha b hb

/-- C5 witness: at the groups A ↦ 2, B ↦ 1 with n = 1 the omitted
value 1 is ≤ the returned value 2. -/
theorem topN_spec_witness :
    (topN 1 [("A", (2 : Rat)), ("B", 1)]).length ≤ 1 ∧ (1 : Rat) ≤ 2 := by
  obtain ⟨h1, _, h3⟩ := topN_spec [("A", (2 : Rat)), ("B", 1)] 1
  have hma : ("A", (2 : Rat)) ∈ topN 1 [("A", (2 : Rat)), ("B", 1)] := by
    simp +decide [topN, nlargest, sortDescVal, groupSum, List.insertionSort,
      List.orderedInsert, List.dedup, List.filter, valGe]
  have hmb : ("B", (1 : Rat)) ∈ omittedBy 1 [("A", (2 : Rat)), ("B", 1)] := by
    simp +decide [omittedBy, sortDescVal, groupSum, List.insertionSort,
      List.orderedInsert, List.dedup, List.filter, valGe]
  exact ⟨h1, h3 _ hma _ hmb⟩

end IcesiPractica
